import Mathlib

/-!
Shallow embedding of the MosesQuant Python strategy example
(`python_examples/strategy_example.py`): the `RSIAlphaModel`,
`MovingAverageCrossAlphaModel` and `CompositeAlphaModel` classes and the
consensus-aggregation algorithm, together with theorems settling the
frozen claims about them.

Python floats are modelled as exact rationals (`ℚ`); the external
calculation engine and data provider (`mq.PyCalculationEngine`,
`mq.PyDataProvider`) are modelled as an explicit environment of
functions returning `Except String _`, so that a collaborator raising an
exception is an `Except.error` and the Python `try/except` around each
body of a symbol iteration is the function `caught` below.
-/

namespace MosesQuant

/-- Direction of an insight: the data model enumerates exactly Up and Down. -/
inductive Direction where
  | Up : Direction
  | Down : Direction
deriving DecidableEq, Repr

/-- Embedding of `mq.PyInsight` as used by the models: symbol, direction,
optional confidence (Python `Optional[float]`), magnitude and provenance. -/
structure Insight where
  symbol : String
  direction : Direction
  confidence : Option ℚ
  magnitude : ℚ
  source_model : String
deriving DecidableEq, Repr

/-- Environment of external collaborators (`mq.PyDataProvider.get_price_history`,
`mq.PyCalculationEngine.calculate_rsi`, `calculate_sma`). A raised Python
exception is modelled as `Except.error`. -/
structure PyEnv where
  get_price_history : String → Int → Except String (List ℚ)
  calculate_rsi : List ℚ → Int → Except String (List ℚ)
  calculate_sma : List ℚ → Int → Except String (List ℚ)

/-- The per-symbol `try/except` of the Python loops: an exception escaping the
body of the loop iteration is caught and the symbol is skipped (`continue`). -/
def caught (r : Except String (Option Insight)) : Option Insight :=
  match r with
  | Except.ok o => o
  | Except.error _ => none

/-- Configuration of `RSIAlphaModel` (fields assigned by `__init__`). -/
structure RSIAlphaModel where
  name : String
  rsi_period : Int
  overbought : ℚ
  oversold : ℚ
deriving Repr

/-- Embedding of `RSIAlphaModel.__init__`: the Python constructor body only
assigns the fields (and the base class sets `name`); it contains no `raise`,
so in the `Except` monad it always returns `ok`. -/
def RSIAlphaModel.init (rsi_period : Int) (overbought oversold : ℚ) :
    Except String RSIAlphaModel :=
  Except.ok { name := "RSI_Alpha_Model", rsi_period := rsi_period,
              overbought := overbought, oversold := oversold }

/-- Body of one iteration of the symbol loop of `RSIAlphaModel.generate_insights`
(lines 80-116 of `strategy_example.py`), before the enclosing `try/except`:
fetch 50 prices, skip on insufficient data or an empty RSI series, otherwise
compare the latest RSI value against the thresholds. -/
def RSIAlphaModel.processSymbol (m : RSIAlphaModel) (env : PyEnv)
    (symbol : String) : Except String (Option Insight) :=
  match env.get_price_history symbol 50 with
  | Except.error e => Except.error e
  | Except.ok prices =>
    if (prices.length : Int) < m.rsi_period + 1 then Except.ok none
    else
      match env.calculate_rsi prices m.rsi_period with
      | Except.error e => Except.error e
      | Except.ok rsi_values =>
        match rsi_values.getLast? with
        | none => Except.ok none
        | some latest_rsi =>
          if latest_rsi > m.overbought then
            Except.ok (some
              { symbol := symbol, direction := Direction.Down,
                confidence := some (min 0.9 ((latest_rsi - m.overbought) / 10)),
                magnitude := 1, source_model := m.name })
          else if latest_rsi < m.oversold then
            Except.ok (some
              { symbol := symbol, direction := Direction.Up,
                confidence := some (min 0.9 ((m.oversold - latest_rsi) / 10)),
                magnitude := 1, source_model := m.name })
          else Except.ok none

/-- Embedding of `RSIAlphaModel.generate_insights`: loop over the symbols, catching any
per-symbol exception and collecting the produced insights in order. -/
def RSIAlphaModel.generate_insights (m : RSIAlphaModel) (env : PyEnv)
    (symbols : List String) : List Insight :=
  symbols.filterMap (fun s => caught (m.processSymbol env s))

/-- Configuration of `MovingAverageCrossAlphaModel`. -/
structure MovingAverageCrossAlphaModel where
  name : String
  fast_period : Int
  slow_period : Int
deriving Repr

/-- Embedding of `MovingAverageCrossAlphaModel.__init__`: field assignment
only, no `raise`, hence always `ok`. -/
def MovingAverageCrossAlphaModel.init (fast_period slow_period : Int) :
    Except String MovingAverageCrossAlphaModel :=
  Except.ok { name := "MA_Cross_Alpha_Model", fast_period := fast_period,
              slow_period := slow_period }

/-- Body of one iteration of the symbol loop of
`MovingAverageCrossAlphaModel.generate_insights` (lines 147-188): fetch
prices, skip on insufficient data or short SMA series, then compare the last
two points of the fast and slow SMA series (`ma[-1]`, `ma[-2]`, read here
from the reversed lists). -/
def MovingAverageCrossAlphaModel.processSymbol (m : MovingAverageCrossAlphaModel)
    (env : PyEnv) (symbol : String) : Except String (Option Insight) :=
  match env.get_price_history symbol (max m.fast_period m.slow_period + 10) with
  | Except.error e => Except.error e
  | Except.ok prices =>
    if (prices.length : Int) < m.slow_period + 2 then Except.ok none
    else
      match env.calculate_sma prices m.fast_period with
      | Except.error e => Except.error e
      | Except.ok fast_ma =>
        match env.calculate_sma prices m.slow_period with
        | Except.error e => Except.error e
        | Except.ok slow_ma =>
          if fast_ma.length < 2 ∨ slow_ma.length < 2 then Except.ok none
          else
            match fast_ma.reverse, slow_ma.reverse with
            | fast_current :: fast_previous :: _, slow_current :: slow_previous :: _ =>
              if fast_previous ≤ slow_previous ∧ fast_current > slow_current then
                Except.ok (some
                  { symbol := symbol, direction := Direction.Up,
                    confidence := some 0.7, magnitude := 1, source_model := m.name })
              else if fast_previous ≥ slow_previous ∧ fast_current < slow_current then
                Except.ok (some
                  { symbol := symbol, direction := Direction.Down,
                    confidence := some 0.7, magnitude := 1, source_model := m.name })
              else Except.ok none
            | _, _ => Except.ok none

/-- Embedding of `MovingAverageCrossAlphaModel.generate_insights`: symbol loop with the
per-symbol `try/except`. -/
def MovingAverageCrossAlphaModel.generate_insights (m : MovingAverageCrossAlphaModel)
    (env : PyEnv) (symbols : List String) : List Insight :=
  symbols.filterMap (fun s => caught (m.processSymbol env s))

/-- The Python expression `i.confidence or 0.5` of the composite model:
`or` substitutes `0.5` for every falsy value, i.e. both for a missing
confidence (`None`) and for a confidence equal to `0.0`. -/
def pyConfidence (c : Option ℚ) : ℚ :=
  match c with
  | none => 0.5
  | some x => if x = 0 then 0.5 else x

/-- Python-dict key collection: append the key if it is not present yet, so
keys end up in order of first appearance (`insights_by_symbol` keys). -/
def dictInsert (acc : List String) (s : String) : List String :=
  if s ∈ acc then acc else acc ++ [s]

/-- Keys of the Python grouping dict, in insertion (first-appearance) order. -/
def dictKeys (l : List String) : List String :=
  l.foldl dictInsert []

/-- The group of collected insights for one symbol: exactly the insights of
`all_insights` carrying that symbol, in collection order
(`insights_by_symbol[symbol]`). -/
def groupFor (l : List Insight) (s : String) : List Insight :=
  l.filter (fun i => i.symbol == s)

/-- The body of the per-symbol consensus loop of
`CompositeAlphaModel.generate_insights` (lines 227-251): quorum of 2,
partition into Up/Down, strict majority wins, confidence is the average of
the winning subset with `i.confidence or 0.5` for each member; a tie or a
missed quorum produces nothing. -/
def consensusFor (name : String) (s : String) (symbol_insights : List Insight) :
    Option Insight :=
  if 2 ≤ symbol_insights.length then
    let up_insights := symbol_insights.filter (fun i => i.direction == Direction.Up)
    let down_insights := symbol_insights.filter (fun i => i.direction == Direction.Down)
    if up_insights.length > down_insights.length then
      some
        { symbol := s, direction := Direction.Up,
          confidence := some ((up_insights.map (fun i => pyConfidence i.confidence)).sum
            / (up_insights.length : ℚ)),
          magnitude := 1, source_model := name }
    else if down_insights.length > up_insights.length then
      some
        { symbol := s, direction := Direction.Down,
          confidence := some ((down_insights.map (fun i => pyConfidence i.confidence)).sum
            / (down_insights.length : ℚ)),
          magnitude := 1, source_model := name }
    else none
  else none

/-- A composite model holds a list of sub-models; each sub-model is its
`generate_insights` function (an arbitrary `BasePythonAlphaModel`). -/
structure CompositeAlphaModel where
  name : String
  models : List (List String → List Insight)

/-- Embedding of `CompositeAlphaModel.__init__`. -/
def CompositeAlphaModel.init (models : List (List String → List Insight)) :
    Except String CompositeAlphaModel :=
  Except.ok { name := "Composite_Alpha_Model", models := models }

/-- Collection phase of `CompositeAlphaModel.generate_insights`: invoke each
sub-model in turn and flatten the results (`all_insights`). -/
def collectAll (models : List (List String → List Insight))
    (symbols : List String) : List Insight :=
  models.flatMap (fun model => model symbols)

/-- Grouping and consensus phase: group `all_insights` by symbol in a dict
(keys in first-appearance order, each group in collection order) and emit
the consensus insight of each group that produces one. -/
def compositeFromCollected (name : String) (all_insights : List Insight) :
    List Insight :=
  (dictKeys (all_insights.map (fun i => i.symbol))).filterMap
    (fun s => consensusFor name s (groupFor all_insights s))

/-- Embedding of `CompositeAlphaModel.generate_insights`: collect, group, reduce. -/
def CompositeAlphaModel.generate_insights (m : CompositeAlphaModel)
    (symbols : List String) : List Insight :=
  compositeFromCollected m.name (collectAll m.models symbols)

/-- The Up subset of a group of insights (`up_insights`). -/
def upSubset (g : List Insight) : List Insight :=
  g.filter (fun i => i.direction == Direction.Up)

/-- The Down subset of a group of insights (`down_insights`). -/
def downSubset (g : List Insight) : List Insight :=
  g.filter (fun i => i.direction == Direction.Down)

/-- The average confidence the code computes over a winning subset:
`sum(i.confidence or 0.5 for i in subset) / len(subset)`. -/
def pyAverage (l : List Insight) : ℚ :=
  (l.map (fun i => pyConfidence i.confidence)).sum / (l.length : ℚ)

/-- Modelled from the words of the claim, for comparison with the code: the
arithmetic mean of the confidences where only a missing confidence counts
as 0.5 (a present confidence, including 0.0, keeps its value). -/
def claimAverage (l : List Insight) : ℚ :=
  (l.map (fun i => i.confidence.getD 0.5)).sum / (l.length : ℚ)

/-- A sub-model that always reports Up on symbol "A" with confidence 0.0
(a legal confidence value, lying in [0, 1]). -/
def subModelZero : List String → List Insight :=
  fun _ => [{ symbol := "A", direction := Direction.Up, confidence := some 0,
              magnitude := 1, source_model := "M1" }]

/-- A sub-model that always reports Up on symbol "A" with confidence 0.8. -/
def subModelEight : List String → List Insight :=
  fun _ => [{ symbol := "A", direction := Direction.Up, confidence := some (4/5),
              magnitude := 1, source_model := "M2" }]

/-- A sub-model that always reports Down on symbol "A" with confidence 0.9. -/
def subModelDown : List String → List Insight :=
  fun _ => [{ symbol := "A", direction := Direction.Down, confidence := some (9/10),
              magnitude := 1, source_model := "M3" }]

/-- A concrete environment on which every symbol has 15 prices and RSI
series `[85]`, so the default RSI model signals Down on every symbol. -/
def envRSISignal : PyEnv :=
  { get_price_history := fun _ _ => Except.ok (List.replicate 15 1),
    calculate_rsi := fun _ _ => Except.ok [85],
    calculate_sma := fun _ _ => Except.ok [] }

/-- A concrete environment whose data provider raises on symbol "BAD". -/
def envBadSymbol : PyEnv :=
  { get_price_history := fun s _ =>
      if s = "BAD" then Except.error "boom" else Except.ok (List.replicate 15 1),
    calculate_rsi := fun _ _ => Except.ok [85],
    calculate_sma := fun _ _ => Except.ok [] }

/-- The RSI model with the default construction parameters. -/
def rsiDefault : RSIAlphaModel :=
  { name := "RSI_Alpha_Model", rsi_period := 14, overbought := 70, oversold := 30 }

/-- The moving-average model with the default construction parameters. -/
def maDefault : MovingAverageCrossAlphaModel :=
  { name := "MA_Cross_Alpha_Model", fast_period := 10, slow_period := 20 }

/-! ### Helper lemmas about the embedding -/

lemma caught_error {e : String} {r : Except String (Option Insight)}
    (h : r = Except.error e) : caught r = none := by
  subst h; rfl

lemma filterMap_skip (f : String → Option Insight) (s : String) (hfs : f s = none) :
    ∀ l : List String, l.filterMap f = (l.filter (fun x => x ≠ s)).filterMap f := by
  intro l
  induction l with
  | nil => rfl
  | cons x t ih =>
    by_cases hx : x = s
    · subst hx
      simp [List.filterMap_cons, List.filter_cons, hfs, ih]
    · cases hfx : f x <;>
        simp [List.filterMap_cons, List.filter_cons, hx, hfx, ih]

lemma nodup_dictInsert {acc : List String} (s : String) (h : acc.Nodup) :
    (dictInsert acc s).Nodup := by
  unfold dictInsert
  split
  · exact h
  · next hs => simp [List.nodup_append, h, hs]

lemma mem_dictInsert {acc : List String} {a s : String} :
    a ∈ dictInsert acc s ↔ a ∈ acc ∨ a = s := by
  unfold dictInsert
  split
  · next hs =>
    constructor
    · exact fun h => Or.inl h
    · rintro (h | rfl)
      · exact h
      · exact hs
  · simp

lemma nodup_foldl_dictInsert :
    ∀ (l acc : List String), acc.Nodup → (l.foldl dictInsert acc).Nodup := by
  intro l
  induction l with
  | nil => exact fun _ h => h
  | cons x t ih => exact fun acc h => ih _ (nodup_dictInsert x h)

lemma mem_foldl_dictInsert :
    ∀ (l acc : List String) (a : String),
      a ∈ l.foldl dictInsert acc ↔ a ∈ acc ∨ a ∈ l := by
  intro l
  induction l with
  | nil => simp
  | cons x t ih =>
    intro acc a
    simp only [List.foldl_cons, ih, mem_dictInsert, List.mem_cons]
    tauto

lemma dictKeys_nodup (l : List String) : (dictKeys l).Nodup :=
  nodup_foldl_dictInsert l [] List.nodup_nil

lemma mem_dictKeys {l : List String} {a : String} : a ∈ dictKeys l ↔ a ∈ l := by
  unfold dictKeys
  rw [mem_foldl_dictInsert]
  simp

lemma consensusFor_symbol {name s : String} {g : List Insight} {i : Insight}
    (h : consensusFor name s g = some i) : i.symbol = s := by
  simp only [consensusFor] at h
  split at h
  · split at h
    · simp only [Option.some.injEq] at h
      subst h; rfl
    · split at h
      · simp only [Option.some.injEq] at h
        subst h; rfl
      · simp at h
  · simp at h

lemma filter_symbol_filterMap (f : String → Option Insight)
    (hf : ∀ k i, f k = some i → i.symbol = k) :
    ∀ (keys : List String), keys.Nodup → ∀ s : String,
      (keys.filterMap f).filter (fun i => i.symbol == s) =
        if s ∈ keys then (f s).toList else [] := by
  intro keys
  induction keys with
  | nil => intro _ s; rfl
  | cons k t ih =>
    intro hnd s
    obtain ⟨hk, ht⟩ := List.nodup_cons.mp hnd
    cases hfk : f k with
    | none =>
      have hstep : ((k :: t).filterMap f).filter (fun i => i.symbol == s)
          = (t.filterMap f).filter (fun i => i.symbol == s) := by
        simp [List.filterMap_cons, hfk]
      rw [hstep, ih ht s]
      by_cases hks : s = k
      · subst hks
        simp [hk, hfk]
      · simp [List.mem_cons, hks]
    | some i =>
      have hsym := hf k i hfk
      by_cases hks : s = k
      · subst hks
        have hstep : ((s :: t).filterMap f).filter (fun i => i.symbol == s)
            = i :: ((t.filterMap f).filter (fun i => i.symbol == s)) := by
          simp [List.filterMap_cons, hfk, List.filter_cons, hsym]
        rw [hstep, ih ht s]
        simp [hk, hfk]
      · have hstep : ((k :: t).filterMap f).filter (fun i => i.symbol == s)
            = (t.filterMap f).filter (fun i => i.symbol == s) := by
          have : (i.symbol == s) = false := by
            simp [hsym]
            exact fun hc => hks hc.symm
          simp [List.filterMap_cons, hfk, List.filter_cons, this]
        rw [hstep, ih ht s]
        simp [List.mem_cons, hks]

lemma filter_compositeFromCollected (name : String) (l : List Insight) (s : String) :
    (compositeFromCollected name l).filter (fun i => i.symbol == s) =
      if s ∈ dictKeys (l.map fun i => i.symbol) then
        (consensusFor name s (groupFor l s)).toList
      else [] :=
  filter_symbol_filterMap _ (fun _ _ h => consensusFor_symbol h) _
    (dictKeys_nodup _) s

lemma mem_dictKeys_of_group {l : List Insight} {s : String}
    (h : groupFor l s ≠ []) : s ∈ dictKeys (l.map fun i => i.symbol) := by
  rw [mem_dictKeys]
  obtain ⟨i, hi⟩ := List.exists_mem_of_ne_nil _ h
  have hmem := List.mem_filter.mp hi
  have : i.symbol = s := by simpa using hmem.2
  exact this ▸ List.mem_map_of_mem (fun i => i.symbol) hmem.1

lemma group_eq_nil_of_not_mem {l : List Insight} {s : String}
    (h : s ∉ dictKeys (l.map fun i => i.symbol)) : groupFor l s = [] := by
  rw [mem_dictKeys] at h
  refine List.filter_eq_nil_iff.mpr ?_
  intro i hi
  simp only [beq_iff_eq]
  intro hc
  exact h (hc ▸ List.mem_map_of_mem (fun i => i.symbol) hi)

lemma consensusFor_perm {g₁ g₂ : List Insight} (name s : String)
    (hp : g₁.Perm g₂) : consensusFor name s g₁ = consensusFor name s g₂ := by
  have hlen := hp.length_eq
  have hu : (g₁.filter fun i => i.direction == Direction.Up).Perm
      (g₂.filter fun i => i.direction == Direction.Up) := hp.filter _
  have hd : (g₁.filter fun i => i.direction == Direction.Down).Perm
      (g₂.filter fun i => i.direction == Direction.Down) := hp.filter _
  have hus := (hu.map fun i => pyConfidence i.confidence).sum_eq
  have hds := (hd.map fun i => pyConfidence i.confidence).sum_eq
  simp only [consensusFor, hlen, hu.length_eq, hd.length_eq, hus, hds]

lemma map_symbol_filterMap_sublist (f : String → Option Insight)
    (hf : ∀ k i, f k = some i → i.symbol = k) :
    ∀ keys : List String, ((keys.filterMap f).map fun i => i.symbol).Sublist keys := by
  intro keys
  induction keys with
  | nil => simp
  | cons k t ih =>
    cases hfk : f k with
    | none =>
      simp only [List.filterMap_cons, hfk]
      exact ih.cons k
    | some i =>
      simp only [List.filterMap_cons, hfk, List.map_cons, hf k i hfk]
      exact ih.cons₂ k

lemma rsi_processSymbol_ok_some {m : RSIAlphaModel} {env : PyEnv} {s : String}
    {i : Insight} (h : m.processSymbol env s = Except.ok (some i)) :
    i.symbol = s := by
  unfold RSIAlphaModel.processSymbol at h
  split at h
  · simp at h
  · split at h
    · simp at h
    · split at h
      · simp at h
      · split at h
        · simp at h
        · split at h
          · simp only [Except.ok.injEq, Option.some.injEq] at h
            subst h; rfl
          · split at h
            · simp only [Except.ok.injEq, Option.some.injEq] at h
              subst h; rfl
            · simp at h

lemma ma_processSymbol_ok_some {m : MovingAverageCrossAlphaModel} {env : PyEnv}
    {s : String} {i : Insight} (h : m.processSymbol env s = Except.ok (some i)) :
    i.symbol = s := by
  unfold MovingAverageCrossAlphaModel.processSymbol at h
  split at h
  · simp at h
  · split at h
    · simp at h
    · split at h
      · simp at h
      · split at h
        · simp at h
        · split at h
          · simp at h
          · split at h
            · split at h
              · simp only [Except.ok.injEq, Option.some.injEq] at h
                subst h; rfl
              · split at h
                · simp only [Except.ok.injEq, Option.some.injEq] at h
                  subst h; rfl
                · simp at h
            · simp at h

lemma rsi_caught_symbol {m : RSIAlphaModel} {env : PyEnv} {s : String} {i : Insight}
    (h : caught (m.processSymbol env s) = some i) : i.symbol = s := by
  unfold caught at h
  split at h
  · next o heq =>
    subst h
    exact rsi_processSymbol_ok_some heq
  · simp at h

lemma ma_caught_symbol {m : MovingAverageCrossAlphaModel} {env : PyEnv}
    {s : String} {i : Insight}
    (h : caught (m.processSymbol env s) = some i) : i.symbol = s := by
  unfold caught at h
  split at h
  · next o heq =>
    subst h
    exact ma_processSymbol_ok_some heq
  · simp at h

lemma rsi_generate_singleton (m : RSIAlphaModel) (env : PyEnv) (s : String) :
    m.generate_insights env [s] = (caught (m.processSymbol env s)).toList := by
  cases hc : caught (m.processSymbol env s) <;>
    simp [RSIAlphaModel.generate_insights, hc]

lemma ma_generate_singleton (m : MovingAverageCrossAlphaModel) (env : PyEnv)
    (s : String) :
    m.generate_insights env [s] = (caught (m.processSymbol env s)).toList := by
  cases hc : caught (m.processSymbol env s) <;>
    simp [MovingAverageCrossAlphaModel.generate_insights, hc]

lemma rsi_processSymbol_eval (m : RSIAlphaModel) (env : PyEnv) (s : String)
    (prices rsi_values : List ℚ) (v : ℚ)
    (hprices : env.get_price_history s 50 = Except.ok prices)
    (hlen : m.rsi_period + 1 ≤ (prices.length : Int))
    (hrsi : env.calculate_rsi prices m.rsi_period = Except.ok rsi_values)
    (hlast : rsi_values.getLast? = some v) :
    m.processSymbol env s =
      (if v > m.overbought then
        Except.ok (some
          { symbol := s, direction := Direction.Down,
            confidence := some (min 0.9 ((v - m.overbought) / 10)),
            magnitude := 1, source_model := m.name })
      else if v < m.oversold then
        Except.ok (some
          { symbol := s, direction := Direction.Up,
            confidence := some (min 0.9 ((m.oversold - v) / 10)),
            magnitude := 1, source_model := m.name })
      else Except.ok none) := by
  unfold RSIAlphaModel.processSymbol
  rw [hprices]
  simp only [hrsi]
  rw [if_neg (by omega : ¬ (prices.length : Int) < m.rsi_period + 1)]
  simp only [hlast]

/-- C4: under the configured threshold contract `oversold < overbought`, when
the data provider returns at least `rsi_period + 1` prices for a
symbol and the RSI series is non-empty with latest value `v`,
`RSIAlphaModel.generate_insights` emits exactly one Down insight with
confidence `min 0.9 ((v - overbought) / 10)` if `v > overbought`, exactly one
Up insight with confidence `min 0.9 ((oversold - v) / 10)` if `v < oversold`,
and no insight when `oversold ≤ v ≤ overbought`; every emitted confidence is
nonnegative and at most `0.9`. -/
theorem rsi_threshold_signals (m : RSIAlphaModel) (env : PyEnv) (s : String)
    (prices rsi_values : List ℚ) (v : ℚ)
    (hconf : m.oversold < m.overbought)
    (hprices : env.get_price_history s 50 = Except.ok prices)
    (hlen : m.rsi_period + 1 ≤ (prices.length : Int))
    (hrsi : env.calculate_rsi prices m.rsi_period = Except.ok rsi_values)
    (hlast : rsi_values.getLast? = some v) :
    (m.overbought < v →
      m.generate_insights env [s] =
        [{ symbol := s, direction := Direction.Down,
           confidence := some (min 0.9 ((v - m.overbought) / 10)),
           magnitude := 1, source_model := m.name }] ∧
      0 ≤ min 0.9 ((v - m.overbought) / 10) ∧
      min 0.9 ((v - m.overbought) / 10) ≤ 0.9) ∧
    (v < m.oversold →
      m.generate_insights env [s] =
        [{ symbol := s, direction := Direction.Up,
           confidence := some (min 0.9 ((m.oversold - v) / 10)),
           magnitude := 1, source_model := m.name }] ∧
      0 ≤ min 0.9 ((m.oversold - v) / 10) ∧
      min 0.9 ((m.oversold - v) / 10) ≤ 0.9) ∧
    (m.oversold ≤ v → v ≤ m.overbought → m.generate_insights env [s] = []) := by
  have key := rsi_processSymbol_eval m env s prices rsi_values v hprices hlen hrsi hlast
  have hgen := rsi_generate_singleton m env s
  refine ⟨fun hv => ⟨?_, ?_, min_le_left _ _⟩,
          fun hv => ⟨?_, ?_, min_le_left _ _⟩,
          fun h1 h2 => ?_⟩
  · rw [hgen]
    rw [key, if_pos hv]
    rfl
  · exact le_min (by norm_num) (div_nonneg (by linarith) (by norm_num))
  · rw [hgen]
    rw [key, if_neg (by linarith : ¬ v > m.overbought), if_pos hv]
    rfl
  · exact le_min (by norm_num) (div_nonneg (by linarith) (by norm_num))
  · rw [hgen]
    rw [key, if_neg (by linarith : ¬ v > m.overbought),
        if_neg (by linarith : ¬ v < m.oversold)]
    rfl

/-- Witness for `rsi_threshold_signals` at a concrete environment: default
thresholds 70/30, 15 prices, RSI series `[85]`; the model emits the Down
insight with confidence `min 0.9 1.5 = 0.9`. -/
theorem rsi_threshold_signals_witness :
    ({ name := "RSI_Alpha_Model", rsi_period := 14, overbought := 70,
       oversold := 30 } : RSIAlphaModel).generate_insights
      { get_price_history := fun _ _ => Except.ok (List.replicate 15 1),
        calculate_rsi := fun _ _ => Except.ok [85],
        calculate_sma := fun _ _ => Except.ok [] } ["A"] =
      [{ symbol := "A", direction := Direction.Down,
         confidence := some (min 0.9 ((85 - 70) / 10)),
         magnitude := 1, source_model := "RSI_Alpha_Model" }] :=
  ((rsi_threshold_signals _ _ "A" (List.replicate 15 1) [85] 85
      (by norm_num) rfl (by norm_num) rfl rfl).1 (by norm_num)).1

lemma ma_processSymbol_eval (m : MovingAverageCrossAlphaModel) (env : PyEnv)
    (s : String) (prices fast_ma slow_ma : List ℚ)
    (fast_current fast_previous slow_current slow_previous : ℚ)
    (frest srest : List ℚ)
    (hprices : env.get_price_history s (max m.fast_period m.slow_period + 10)
      = Except.ok prices)
    (hlen : m.slow_period + 2 ≤ (prices.length : Int))
    (hfast : env.calculate_sma prices m.fast_period = Except.ok fast_ma)
    (hslow : env.calculate_sma prices m.slow_period = Except.ok slow_ma)
    (hfr : fast_ma.reverse = fast_current :: fast_previous :: frest)
    (hsr : slow_ma.reverse = slow_current :: slow_previous :: srest) :
    m.processSymbol env s =
      (if fast_previous ≤ slow_previous ∧ fast_current > slow_current then
        Except.ok (some
          { symbol := s, direction := Direction.Up, confidence := some 0.7,
            magnitude := 1, source_model := m.name })
      else if fast_previous ≥ slow_previous ∧ fast_current < slow_current then
        Except.ok (some
          { symbol := s, direction := Direction.Down, confidence := some 0.7,
            magnitude := 1, source_model := m.name })
      else Except.ok none) := by
  have hflen : ¬ (fast_ma.length < 2 ∨ slow_ma.length < 2) := by
    rw [← List.length_reverse fast_ma, ← List.length_reverse slow_ma, hfr, hsr]
    simp
  unfold MovingAverageCrossAlphaModel.processSymbol
  rw [hprices]
  simp only [hfast, hslow]
  rw [if_neg (by omega : ¬ (prices.length : Int) < m.slow_period + 2)]
  rw [if_neg hflen]
  simp only [hfr, hsr]

/-- C5: with sufficient data (at least `slow_period + 2` prices, both SMA
series of length at least 2) and `(fast_prev, fast_cur)`, `(slow_prev,
slow_cur)` the last two points of the series,
`MovingAverageCrossAlphaModel.generate_insights` emits exactly one Up insight
with confidence 0.7 on a golden cross (`fast_prev ≤ slow_prev` and
`fast_cur > slow_cur`), exactly one Down insight with confidence 0.7 on a
death cross (`fast_prev ≥ slow_prev` and `fast_cur < slow_cur`), and nothing
otherwise; equality of the previous values with strict divergence of the
current values counts as a cross. -/
theorem ma_cross_signals (m : MovingAverageCrossAlphaModel) (env : PyEnv)
    (s : String) (prices fast_ma slow_ma : List ℚ)
    (fast_current fast_previous slow_current slow_previous : ℚ)
    (frest srest : List ℚ)
    (hprices : env.get_price_history s (max m.fast_period m.slow_period + 10)
      = Except.ok prices)
    (hlen : m.slow_period + 2 ≤ (prices.length : Int))
    (hfast : env.calculate_sma prices m.fast_period = Except.ok fast_ma)
    (hslow : env.calculate_sma prices m.slow_period = Except.ok slow_ma)
    (hfr : fast_ma.reverse = fast_current :: fast_previous :: frest)
    (hsr : slow_ma.reverse = slow_current :: slow_previous :: srest) :
    (fast_previous ≤ slow_previous → fast_current > slow_current →
      m.generate_insights env [s] =
        [{ symbol := s, direction := Direction.Up, confidence := some 0.7,
           magnitude := 1, source_model := m.name }]) ∧
    (fast_previous ≥ slow_previous → fast_current < slow_current →
      m.generate_insights env [s] =
        [{ symbol := s, direction := Direction.Down, confidence := some 0.7,
           magnitude := 1, source_model := m.name }]) ∧
    (¬ (fast_previous ≤ slow_previous ∧ fast_current > slow_current) →
     ¬ (fast_previous ≥ slow_previous ∧ fast_current < slow_current) →
      m.generate_insights env [s] = []) := by
  have key := ma_processSymbol_eval m env s prices fast_ma slow_ma
    fast_current fast_previous slow_current slow_previous frest srest
    hprices hlen hfast hslow hfr hsr
  have hgen := ma_generate_singleton m env s
  refine ⟨fun h1 h2 => ?_, fun h1 h2 => ?_, fun h1 h2 => ?_⟩
  · rw [hgen, key, if_pos ⟨h1, h2⟩]
    rfl
  · rw [hgen, key, if_neg (fun hc => absurd hc.2 (lt_asymm h2)), if_pos ⟨h1, h2⟩]
    rfl
  · rw [hgen, key, if_neg h1, if_neg h2]
    rfl

/-- Witness for `ma_cross_signals`: fast SMA `[10, 12]`, slow SMA `[11, 11]`
over 22 prices with default periods 10/20; previous values `10 ≤ 11`, current
values `12 > 11`, so the model emits the golden-cross Up insight. -/
theorem ma_cross_signals_witness :
    ({ name := "MA_Cross_Alpha_Model", fast_period := 10, slow_period := 20 } :
      MovingAverageCrossAlphaModel).generate_insights
      { get_price_history := fun _ _ => Except.ok (List.replicate 22 1),
        calculate_rsi := fun _ _ => Except.ok [],
        calculate_sma := fun _ p => if p = 10 then Except.ok [10, 12]
          else Except.ok [11, 11] } ["A"] =
      [{ symbol := "A", direction := Direction.Up, confidence := some 0.7,
         magnitude := 1, source_model := "MA_Cross_Alpha_Model" }] :=
  (ma_cross_signals _ _ "A" (List.replicate 22 1) [10, 12] [11, 11]
      12 10 11 11 [] [] rfl (by norm_num) rfl rfl rfl rfl).1
    (by norm_num) (by norm_num)

/-- C2: a symbol whose group of collected sub-model insights has fewer than 2
members gets no composite insight from `CompositeAlphaModel.generate_insights`,
whatever the directions or confidences. -/
theorem composite_quorum (models : List (List String → List Insight))
    (symbols : List String) (s : String)
    (h : (groupFor (collectAll models symbols) s).length < 2) :
    (CompositeAlphaModel.generate_insights
        { name := "Composite_Alpha_Model", models := models } symbols).filter
      (fun i => i.symbol == s) = [] := by
  show (compositeFromCollected "Composite_Alpha_Model"
      (collectAll models symbols)).filter (fun i => i.symbol == s) = []
  rw [filter_compositeFromCollected]
  split
  · have hnone : consensusFor "Composite_Alpha_Model" s
        (groupFor (collectAll models symbols) s) = none := by
      unfold consensusFor
      rw [if_neg (by omega)]
    rw [hnone]; rfl
  · rfl

/-- Witness for `composite_quorum`: a single sub-model insight for "A"
(quorum not met) produces no composite insight for "A". -/
theorem composite_quorum_witness :
    (groupFor (collectAll [subModelZero] ["A"]) "A").length < 2 ∧
    (CompositeAlphaModel.generate_insights
        { name := "Composite_Alpha_Model", models := [subModelZero] } ["A"]).filter
      (fun i => i.symbol == "A") = [] :=
  ⟨by decide, composite_quorum [subModelZero] ["A"] "A" (by decide)⟩

/-- C3: a symbol whose group has at least 2 insights split equally between Up
and Down gets no composite insight — the tie is dropped with no secondary
resolution. -/
theorem composite_tie_dropped (models : List (List String → List Insight))
    (symbols : List String) (s : String)
    (hq : 2 ≤ (groupFor (collectAll models symbols) s).length)
    (ht : (upSubset (groupFor (collectAll models symbols) s)).length =
      (downSubset (groupFor (collectAll models symbols) s)).length) :
    (CompositeAlphaModel.generate_insights
        { name := "Composite_Alpha_Model", models := models } symbols).filter
      (fun i => i.symbol == s) = [] := by
  show (compositeFromCollected "Composite_Alpha_Model"
      (collectAll models symbols)).filter (fun i => i.symbol == s) = []
  rw [filter_compositeFromCollected]
  split
  · have hnone : consensusFor "Composite_Alpha_Model" s
        (groupFor (collectAll models symbols) s) = none := by
      unfold consensusFor
      simp only [upSubset, downSubset] at ht
      rw [if_pos hq, if_neg (by omega), if_neg (by omega)]
    rw [hnone]; rfl
  · rfl

/-- Witness for `composite_tie_dropped`: one Up and one Down sub-model insight
for "A" — quorum met, tie — produce no composite insight for "A". -/
theorem composite_tie_dropped_witness :
    2 ≤ (groupFor (collectAll [subModelZero, subModelDown] ["A"]) "A").length ∧
    (CompositeAlphaModel.generate_insights
        { name := "Composite_Alpha_Model",
          models := [subModelZero, subModelDown] } ["A"]).filter
      (fun i => i.symbol == "A") = [] :=
  ⟨by decide,
   composite_tie_dropped [subModelZero, subModelDown] ["A"] "A"
     (by decide) (by decide)⟩

/-- C1 counterexample: two Up sub-model insights for "A" with confidences 0.0
and 0.8. The average demanded by the claim, where only a missing confidence counts as 0.5,
is `(0 + 0.8) / 2 = 2/5`, but the code computes `i.confidence or 0.5`, which
also replaces the present confidence 0.0 by 0.5 (Python falsiness), emitting
confidence `(0.5 + 0.8) / 2 = 13/20` instead. -/
theorem composite_zero_confidence_counterexample :
    CompositeAlphaModel.generate_insights
        { name := "Composite_Alpha_Model",
          models := [subModelZero, subModelEight] } ["A"] =
      [{ symbol := "A", direction := Direction.Up, confidence := some (13/20),
         magnitude := 1, source_model := "Composite_Alpha_Model" }] ∧
    claimAverage (upSubset (groupFor
      (collectAll [subModelZero, subModelEight] ["A"]) "A")) = 2/5 ∧
    (13/20 : ℚ) ≠ 2/5 := by
  refine ⟨?_, ?_, by norm_num⟩
  · simp [CompositeAlphaModel.generate_insights, compositeFromCollected,
      collectAll, dictKeys, dictInsert, groupFor, consensusFor, subModelZero,
      subModelEight, pyConfidence]
    norm_num
  · simp [claimAverage, upSubset, groupFor, collectAll, subModelZero,
      subModelEight]
    norm_num

/-- C1 amended: for a symbol whose group has at least 2 insights and a strict
Up majority, the composite model emits exactly one Up insight whose confidence
is the mean over the Up subset of `i.confidence or 0.5` — a missing confidence
or a confidence equal to 0.0 counting as 0.5 — with magnitude 1 and
source_model "Composite_Alpha_Model"; symmetrically for a strict Down
majority. -/
theorem composite_majority_average (models : List (List String → List Insight))
    (symbols : List String) (s : String)
    (hq : 2 ≤ (groupFor (collectAll models symbols) s).length) :
    ((downSubset (groupFor (collectAll models symbols) s)).length <
        (upSubset (groupFor (collectAll models symbols) s)).length →
      (CompositeAlphaModel.generate_insights
          { name := "Composite_Alpha_Model", models := models } symbols).filter
        (fun i => i.symbol == s) =
      [{ symbol := s, direction := Direction.Up,
         confidence := some (pyAverage (upSubset
           (groupFor (collectAll models symbols) s))),
         magnitude := 1, source_model := "Composite_Alpha_Model" }]) ∧
    ((upSubset (groupFor (collectAll models symbols) s)).length <
        (downSubset (groupFor (collectAll models symbols) s)).length →
      (CompositeAlphaModel.generate_insights
          { name := "Composite_Alpha_Model", models := models } symbols).filter
        (fun i => i.symbol == s) =
      [{ symbol := s, direction := Direction.Down,
         confidence := some (pyAverage (downSubset
           (groupFor (collectAll models symbols) s))),
         magnitude := 1, source_model := "Composite_Alpha_Model" }]) := by
  have hne : groupFor (collectAll models symbols) s ≠ [] := by
    intro hnil
    rw [hnil] at hq
    simp at hq
  have hmem := mem_dictKeys_of_group hne
  constructor
  · intro hmaj
    show (compositeFromCollected "Composite_Alpha_Model"
        (collectAll models symbols)).filter (fun i => i.symbol == s) = _
    rw [filter_compositeFromCollected, if_pos hmem]
    have hsome : consensusFor "Composite_Alpha_Model" s
        (groupFor (collectAll models symbols) s) =
        some
          { symbol := s, direction := Direction.Up,
            confidence := some (pyAverage (upSubset
              (groupFor (collectAll models symbols) s))),
            magnitude := 1, source_model := "Composite_Alpha_Model" } := by
      unfold consensusFor
      simp only [upSubset, downSubset] at hmaj
      rw [if_pos hq, if_pos hmaj]
      rfl
    rw [hsome]; rfl
  · intro hmaj
    show (compositeFromCollected "Composite_Alpha_Model"
        (collectAll models symbols)).filter (fun i => i.symbol == s) = _
    rw [filter_compositeFromCollected, if_pos hmem]
    have hsome : consensusFor "Composite_Alpha_Model" s
        (groupFor (collectAll models symbols) s) =
        some
          { symbol := s, direction := Direction.Down,
            confidence := some (pyAverage (downSubset
              (groupFor (collectAll models symbols) s))),
            magnitude := 1, source_model := "Composite_Alpha_Model" } := by
      unfold consensusFor
      simp only [upSubset, downSubset] at hmaj
      rw [if_pos hq, if_neg (by omega), if_pos hmaj]
      rfl
    rw [hsome]; rfl

/-- Witness for `composite_majority_average`: two Up insights for "A" (0.0 and
0.8), Up majority 2 to 0; the composite Up insight carries the computed average
confidence. -/
theorem composite_majority_average_witness :
    2 ≤ (groupFor (collectAll [subModelZero, subModelEight] ["A"]) "A").length ∧
    (CompositeAlphaModel.generate_insights
        { name := "Composite_Alpha_Model",
          models := [subModelZero, subModelEight] } ["A"]).filter
      (fun i => i.symbol == "A") =
      [{ symbol := "A", direction := Direction.Up,
         confidence := some (pyAverage (upSubset
           (groupFor (collectAll [subModelZero, subModelEight] ["A"]) "A"))),
         magnitude := 1, source_model := "Composite_Alpha_Model" }] :=
  ⟨by decide,
   (composite_majority_average [subModelZero, subModelEight] ["A"] "A"
      (by decide)).1 (by decide)⟩

/-- C6: if a collaborator raises while one symbol is being processed, both
`RSIAlphaModel.generate_insights` and
`MovingAverageCrossAlphaModel.generate_insights` catch the exception at that
boundary of that symbol (the call returns a list, never propagating the error) and
the result equals the result on the input list with the failing symbol
removed. -/
theorem per_symbol_failure_isolation (env : PyEnv) (s : String)
    (symbols : List String) (mr : RSIAlphaModel)
    (mm : MovingAverageCrossAlphaModel) :
    (∀ e, mr.processSymbol env s = Except.error e →
      mr.generate_insights env symbols =
        mr.generate_insights env (symbols.filter (fun x => x ≠ s))) ∧
    (∀ e, mm.processSymbol env s = Except.error e →
      mm.generate_insights env symbols =
        mm.generate_insights env (symbols.filter (fun x => x ≠ s))) := by
  constructor
  · intro e he
    exact filterMap_skip _ s (caught_error he) symbols
  · intro e he
    exact filterMap_skip _ s (caught_error he) symbols

/-- Witness for `per_symbol_failure_isolation`: the data provider raises on
symbol "BAD"; both models produce on `["A", "BAD"]` exactly what they produce
on the list with "BAD" removed. -/
theorem per_symbol_failure_isolation_witness :
    rsiDefault.generate_insights envBadSymbol ["A", "BAD"] =
      rsiDefault.generate_insights envBadSymbol
        (["A", "BAD"].filter (fun x => x ≠ "BAD")) ∧
    maDefault.generate_insights envBadSymbol ["A", "BAD"] =
      maDefault.generate_insights envBadSymbol
        (["A", "BAD"].filter (fun x => x ≠ "BAD")) :=
  ⟨(per_symbol_failure_isolation envBadSymbol "BAD" ["A", "BAD"]
      rsiDefault maDefault).1 "boom" rfl,
   (per_symbol_failure_isolation envBadSymbol "BAD" ["A", "BAD"]
      rsiDefault maDefault).2 "boom" rfl⟩

/-- C7 counterexample: constructing `RSIAlphaModel` with
`oversold = 80 ≥ overbought = 70` and `MovingAverageCrossAlphaModel` with
non-positive periods succeeds and returns the model unchanged — the
constructors raise no error on invalid configuration, refuting the claim that
construction fails immediately and loudly. -/
theorem constructor_no_validation_counterexample :
    RSIAlphaModel.init 14 70 80 =
      Except.ok { name := "RSI_Alpha_Model", rsi_period := 14,
                  overbought := 70, oversold := 80 } ∧
    MovingAverageCrossAlphaModel.init (-1) 0 =
      Except.ok { name := "MA_Cross_Alpha_Model", fast_period := -1,
                  slow_period := 0 } :=
  ⟨rfl, rfl⟩

/-- C7 amended: the constructors perform no validation at all — every
configuration, including `oversold ≥ overbought` and non-positive periods, is
silently accepted at construction time, and invalid configuration is only
handled by the per-symbol skip policy during signal generation. -/
theorem constructor_silent_acceptance :
    (∀ (p : Int) (ob os : ℚ), RSIAlphaModel.init p ob os =
      Except.ok { name := "RSI_Alpha_Model", rsi_period := p,
                  overbought := ob, oversold := os }) ∧
    (∀ f sl : Int, MovingAverageCrossAlphaModel.init f sl =
      Except.ok { name := "MA_Cross_Alpha_Model", fast_period := f,
                  slow_period := sl }) :=
  ⟨fun _ _ _ => rfl, fun _ _ => rfl⟩

/-- C8 counterexample: with the symbol "A" duplicated in the input list and an
environment on which "A" yields an RSI signal, `RSIAlphaModel.generate_insights`
returns two insights for "A" — a symbol appears twice in the returned list,
refuting the claim for arbitrary input lists. -/
theorem duplicate_symbol_counterexample :
    (rsiDefault.generate_insights envRSISignal ["A", "A"]).map
      (fun i => i.symbol) = ["A", "A"] := by
  decide

/-- C8 amended: when the input symbol list has no duplicates,
`RSIAlphaModel.generate_insights` and
`MovingAverageCrossAlphaModel.generate_insights` emit at most one insight per
symbol; `CompositeAlphaModel.generate_insights` does so for every input list. -/
theorem at_most_one_insight_per_symbol (env : PyEnv) (mr : RSIAlphaModel)
    (mm : MovingAverageCrossAlphaModel)
    (models : List (List String → List Insight)) (symbols : List String) :
    (symbols.Nodup →
      ((mr.generate_insights env symbols).map (fun i => i.symbol)).Nodup ∧
      ((mm.generate_insights env symbols).map (fun i => i.symbol)).Nodup) ∧
    ((CompositeAlphaModel.generate_insights
        { name := "Composite_Alpha_Model", models := models } symbols).map
      (fun i => i.symbol)).Nodup := by
  constructor
  · intro hnd
    constructor
    · exact hnd.sublist
        (map_symbol_filterMap_sublist _ (fun _ _ h => rsi_caught_symbol h) symbols)
    · exact hnd.sublist
        (map_symbol_filterMap_sublist _ (fun _ _ h => ma_caught_symbol h) symbols)
  · exact (dictKeys_nodup _).sublist
      (map_symbol_filterMap_sublist _ (fun _ _ h => consensusFor_symbol h) _)

/-- Witness for `at_most_one_insight_per_symbol`: on the duplicate-free list
`["A", "B"]`, the default RSI model output has pairwise distinct symbols. -/
theorem at_most_one_insight_per_symbol_witness :
    (["A", "B"] : List String).Nodup ∧
    ((rsiDefault.generate_insights envRSISignal ["A", "B"]).map
      (fun i => i.symbol)).Nodup :=
  ⟨by decide,
   ((at_most_one_insight_per_symbol envRSISignal rsiDefault maDefault []
      ["A", "B"]).1 (by decide)).1⟩

/-- C9: the composite result is determined by the multiset of collected
sub-model insights — permuting the sub-model list produces a permutation of
the composite insight list that agrees with the original on every symbol
(identical content under grouping by symbol). -/
theorem composite_perm_invariant
    (models₁ models₂ : List (List String → List Insight))
    (symbols : List String) (hp : models₁.Perm models₂) :
    (CompositeAlphaModel.generate_insights
        { name := "Composite_Alpha_Model", models := models₁ } symbols).Perm
      (CompositeAlphaModel.generate_insights
        { name := "Composite_Alpha_Model", models := models₂ } symbols) ∧
    ∀ s : String,
      (CompositeAlphaModel.generate_insights
          { name := "Composite_Alpha_Model", models := models₁ } symbols).filter
        (fun i => i.symbol == s) =
      (CompositeAlphaModel.generate_insights
          { name := "Composite_Alpha_Model", models := models₂ } symbols).filter
        (fun i => i.symbol == s) := by
  have hc : (collectAll models₁ symbols).Perm (collectAll models₂ symbols) :=
    hp.flatMap_right _
  have hcons : ∀ t : String,
      consensusFor "Composite_Alpha_Model" t (groupFor (collectAll models₁ symbols) t)
      = consensusFor "Composite_Alpha_Model" t
          (groupFor (collectAll models₂ symbols) t) :=
    fun t => consensusFor_perm _ _ (hc.filter _)
  have hkeysmem : ∀ a : String,
      a ∈ dictKeys ((collectAll models₁ symbols).map fun i => i.symbol) ↔
      a ∈ dictKeys ((collectAll models₂ symbols).map fun i => i.symbol) := by
    intro a
    rw [mem_dictKeys, mem_dictKeys]
    exact (hc.map _).mem_iff
  have hkeys : (dictKeys ((collectAll models₁ symbols).map fun i => i.symbol)).Perm
      (dictKeys ((collectAll models₂ symbols).map fun i => i.symbol)) :=
    (List.perm_ext_iff_of_nodup (dictKeys_nodup _) (dictKeys_nodup _)).mpr hkeysmem
  constructor
  · show (compositeFromCollected "Composite_Alpha_Model"
        (collectAll models₁ symbols)).Perm
      (compositeFromCollected "Composite_Alpha_Model" (collectAll models₂ symbols))
    unfold compositeFromCollected
    rw [List.filterMap_congr (fun a _ => hcons a)]
    exact hkeys.filterMap _
  · intro s
    show (compositeFromCollected "Composite_Alpha_Model"
        (collectAll models₁ symbols)).filter (fun i => i.symbol == s) =
      (compositeFromCollected "Composite_Alpha_Model"
        (collectAll models₂ symbols)).filter (fun i => i.symbol == s)
    rw [filter_compositeFromCollected, filter_compositeFromCollected]
    by_cases hmem : s ∈ dictKeys ((collectAll models₁ symbols).map fun i => i.symbol)
    · rw [if_pos hmem, if_pos ((hkeysmem s).mp hmem), hcons s]
    · rw [if_neg hmem, if_neg (fun h => hmem ((hkeysmem s).mpr h))]

/-- Witness for `composite_perm_invariant`: swapping the two sub-models leaves
the composite output a permutation of the original load, with equal content at
every symbol; here at the concrete sub-models reporting Up(0.0) and Up(0.8)
for "A". -/
theorem composite_perm_invariant_witness :
    (CompositeAlphaModel.generate_insights
        { name := "Composite_Alpha_Model",
          models := [subModelZero, subModelEight] } ["A"]).Perm
      (CompositeAlphaModel.generate_insights
        { name := "Composite_Alpha_Model",
          models := [subModelEight, subModelZero] } ["A"]) :=
  (composite_perm_invariant [subModelZero, subModelEight]
    [subModelEight, subModelZero] ["A"] (List.Perm.swap _ _ _)).1

/-- C10: both per-symbol models process the input symbol list in order and
append insights as they are produced, so the output for a concatenated input
splits as the concatenation of the outputs — an insight generated from an
earlier symbol occurrence always precedes one generated from a later
occurrence. -/
theorem insight_order_preserved (env : PyEnv) (mr : RSIAlphaModel)
    (mm : MovingAverageCrossAlphaModel) (xs ys : List String) :
    mr.generate_insights env (xs ++ ys) =
      mr.generate_insights env xs ++ mr.generate_insights env ys ∧
    mm.generate_insights env (xs ++ ys) =
      mm.generate_insights env xs ++ mm.generate_insights env ys := by
  constructor <;>
    simp [RSIAlphaModel.generate_insights,
      MovingAverageCrossAlphaModel.generate_insights, List.filterMap_append]

end MosesQuant
